import Mathlib

/-!
Verification of the family-emergency-plan app (`src/App.jsx`) and the
to-do list app (`meu-app-react/src/App.jsx`) against their natural-language
specification.  The state container, persistence layer, review scheduler and
import/export codec of the PFE app are embedded shallowly: plain JS objects
and JSON documents become an inductive `Json` tree, the live document becomes
the `Plan` structure, the `Date`/`setMonth` calendar arithmetic becomes
`isoAddMonths` on `JSDate`, and `JSON.parse` becomes the executable
`parseJson`.
-/

namespace PFE

/-- A JSON document / plain JS data value.  Numbers keep their source lexeme
(the app never computes with JSON numbers, so numeric identity of the lexeme
is enough); objects are ordered association lists, as JS objects preserve
insertion order. -/
inductive Json where
  | null : Json
  | bool : Bool → Json
  | num : String → Json
  | str : String → Json
  | arr : List Json → Json
  | obj : List (String × Json) → Json

/-- Length of a JSON array, if the value is an array. -/
def Json.arrLen : Json → Option Nat
  | .arr xs => some xs.length
  | _ => none

/-- The own enumerable properties contributed by a value when it is spread
into an object literal (`\x7b...s, ...data\x7d`): objects contribute their
fields, arrays contribute index-keyed elements, strings contribute
index-keyed characters, and primitives contribute nothing. -/
def Json.ownProps : Json → List (String × Json)
  | .obj fs => fs
  | .arr xs => (List.range xs.length).zip xs |>.map (fun p => (toString p.1, p.2))
  | .str s => (List.range s.length).zip (s.data.map (fun c => Json.str (String.mk [c]))) |>.map (fun p => (toString p.1, p.2))
  | _ => []

/-! ### JSON.parse

An executable model of `JSON.parse`, written as a fuel-indexed recursive
descent parser over the character list.  Simplification: `\u` hex escapes in
string literals are rejected rather than decoded (no input in this
development uses them). -/

/-- JSON insignificant whitespace. -/
def isWsChar (c : Char) : Bool := [' ', '\n', '\t', '\r'].contains c

def skipWs (cs : List Char) : List Char := cs.dropWhile isWsChar

def isDigitChar (c : Char) : Bool := '0' ≤ c && c ≤ '9'

/-- The single-character escape sequences, paired with what they denote. -/
def ESCAPES : List (Char × Char) :=
  [('"', '"'), ('\\', '\\'), ('/', '/'), ('b', Char.ofNat 8),
   ('f', Char.ofNat 12), ('n', '\n'), ('r', '\r'), ('t', '\t')]

/-- Decode a single-character escape sequence. -/
def parseEsc (c : Char) : Option Char := ESCAPES.lookup c

/-- Parse the body of a JSON string literal (the opening quote has been
consumed); returns the decoded characters and the rest of the input. -/
def parseStringBody : List Char → Option (List Char × List Char)
  | [] => none
  | c :: rest =>
    if c == '"' then some ([], rest)
    else if c == '\\' then
      match rest with
      | [] => none
      | e :: rest2 =>
        match parseEsc e with
        | none => none
        | some ch =>
          match parseStringBody rest2 with
          | none => none
          | some (s, r) => some (ch :: s, r)
    else
      match parseStringBody rest with
      | none => none
      | some (s, r) => some (c :: s, r)

/-- Optional fraction part of a JSON number. -/
def parseFrac : List Char → Option (List Char × List Char)
  | [] => some ([], [])
  | c :: r =>
    if c == '.' then
      let ds := r.takeWhile isDigitChar
      if ds.isEmpty then none else some (c :: ds, r.dropWhile isDigitChar)
    else some ([], c :: r)

/-- Optional exponent part of a JSON number. -/
def parseExp : List Char → Option (List Char × List Char)
  | [] => some ([], [])
  | c :: r =>
    if c == 'e' || c == 'E' then
      let (sgn, r1) :=
        match r with
        | s :: r2 => if s == '+' || s == '-' then ([s], r2) else (([] : List Char), r)
        | [] => ([], [])
      let ds := r1.takeWhile isDigitChar
      if ds.isEmpty then none else some (c :: (sgn ++ ds), r1.dropWhile isDigitChar)
    else some ([], c :: r)

/-- Parse a JSON number lexeme (sign, integer part without leading zeros,
optional fraction and exponent). -/
def parseNumber (cs : List Char) : Option (List Char × List Char) :=
  let (sgn, cs1) :=
    match cs with
    | c :: r => if c == '-' then ([c], r) else (([] : List Char), cs)
    | [] => ([], cs)
  match cs1 with
  | [] => none
  | c :: _ =>
    if !isDigitChar c then none
    else
      let ip := cs1.takeWhile isDigitChar
      let cs2 := cs1.dropWhile isDigitChar
      if 1 < ip.length && ip.head? == some '0' then none
      else
        match parseFrac cs2 with
        | none => none
        | some (fp, cs3) =>
          match parseExp cs3 with
          | none => none
          | some (ep, cs4) => some (sgn ++ ip ++ fp ++ ep, cs4)

/-- Record a parsed object member: a later duplicate key overwrites the value
kept at the first occurrence's position, as `JSON.parse` does. -/
def insertProp (fs : List (String × Json)) (k : String) (v : Json) :
    List (String × Json) :=
  if fs.any (fun kv => kv.1 == k) then
    fs.map (fun kv => if kv.1 == k then (k, v) else kv)
  else fs ++ [(k, v)]

mutual

/-- Parse one JSON value from the input (leading whitespace allowed). -/
def parseVal : Nat → List Char → Option (Json × List Char)
  | 0, _ => none
  | fuel + 1, cs =>
    match skipWs cs with
    | [] => none
    | c :: rest =>
      if c == '"' then
        match parseStringBody rest with
        | none => none
        | some (s, r) => some (.str (String.mk s), r)
      else if c == 't' then
        match rest with
        | 'r' :: 'u' :: 'e' :: r => some (.bool true, r)
        | _ => none
      else if c == 'f' then
        match rest with
        | 'a' :: 'l' :: 's' :: 'e' :: r => some (.bool false, r)
        | _ => none
      else if c == 'n' then
        match rest with
        | 'u' :: 'l' :: 'l' :: r => some (.null, r)
        | _ => none
      else if c == '\x7b' then
        match skipWs rest with
        | '\x7d' :: r => some (.obj [], r)
        | cs2 => parseObjRest fuel cs2 []
      else if c == '[' then
        match skipWs rest with
        | ']' :: r => some (.arr [], r)
        | cs2 => parseArrRest fuel cs2 []
      else
        match parseNumber (c :: rest) with
        | none => none
        | some (lx, r) => some (.num (String.mk lx), r)

/-- Parse the members of a JSON array after `[` (at least one element). -/
def parseArrRest : Nat → List Char → List Json → Option (Json × List Char)
  | 0, _, _ => none
  | fuel + 1, cs, acc =>
    match parseVal fuel cs with
    | none => none
    | some (v, r) =>
      match skipWs r with
      | ',' :: r2 => parseArrRest fuel r2 (acc ++ [v])
      | ']' :: r2 => some (.arr (acc ++ [v]), r2)
      | _ => none

/-- Parse the members of a JSON object after `\x7b` (at least one member). -/
def parseObjRest : Nat → List Char → List (String × Json) → Option (Json × List Char)
  | 0, _, _ => none
  | fuel + 1, cs, acc =>
    match skipWs cs with
    | '"' :: r =>
      match parseStringBody r with
      | none => none
      | some (k, r1) =>
        match skipWs r1 with
        | ':' :: r2 =>
          match parseVal fuel r2 with
          | none => none
          | some (v, r3) =>
            match skipWs r3 with
            | ',' :: r4 => parseObjRest fuel r4 (insertProp acc (String.mk k) v)
            | '\x7d' :: r4 => some (.obj (insertProp acc (String.mk k) v), r4)
            | _ => none
        | _ => none
    | _ => none

end

/-- `JSON.parse`: parse a complete JSON document; trailing garbage other
than whitespace is an error.  Every recursive call consumes input, so
`length + 1` units of fuel always suffice. -/
def parseJson (s : String) : Option Json :=
  match parseVal (s.length + 1) s.data with
  | some (v, r) => if (skipWs r).isEmpty then some v else none
  | none => none

/-! ### Data model

The live document (`state` in `PFEApp`).  A family member object may lack
properties: members created by the form have all five, but
`updateFamilyMember` can build one by spreading a partial update over
`undefined` (out-of-bounds read), so each field is an `Option` — `none`
means the property is absent from the JS object. -/

structure Member where
  name : Option String
  age : Option String
  relation : Option String
  health : Option String
  phone : Option String
deriving DecidableEq, Repr

/-- The object with no own properties; spreading `undefined` (an
out-of-bounds array read) contributes no properties, which this also
models. -/
def Member.empty : Member := ⟨none, none, none, none, none⟩

/-- `\x7b...old, ...upd\x7d`: a property present in the update overrides the
old value, absent properties are taken from the old object. -/
def Member.mergeWith (old upd : Member) : Member :=
  ⟨upd.name.orElse (fun _ => old.name),
   upd.age.orElse (fun _ => old.age),
   upd.relation.orElse (fun _ => old.relation),
   upd.health.orElse (fun _ => old.health),
   upd.phone.orElse (fun _ => old.phone)⟩

structure Route where
  name : String
  steps : List String
deriving DecidableEq, Repr

structure Contact where
  name : String
  phone : String
  relation : String
deriving DecidableEq, Repr

structure KitItem where
  name : String
  have_ : Bool
deriving DecidableEq, Repr

/-- A risk-reduction log entry; the source field `by` is a Lean keyword and
is rendered `by_` here. -/
structure RiskAction where
  text : String
  date : String
  by_ : String
deriving DecidableEq, Repr

/-- The root document.  `disasterGuides` is static reference content stored
as the JSON value it is in the source (never inspected structurally by any
operation); the two review timestamps live in the document as ISO strings,
exactly as in the JS state. -/
structure Plan where
  family : List Member
  routesInternal : List Route
  meetingPoints : List String
  externalContacts : List Contact
  kit : List KitItem
  disasterGuides : Json
  riskActions : List RiskAction
  lastReview : String
  nextReview : String
  notes : String

/-! ### Review scheduler (`isoAddMonths`, the reminder check)

`isoAddMonths` parses the ISO timestamp, calls `setMonth(getMonth() + months)`
and re-serializes.  `JSDate` is the parsed timestamp: UTC calendar fields
plus the time of day (unaffected by `setMonth`).  ECMAScript `setMonth`
normalizes the month index into the year, then `MakeDay` rolls a day-of-month
that exceeds the target month's length over into the following month; since a
valid day is at most 31 and every month has at least 28 days, the overflow
never reaches past that next month. -/

structure JSDate where
  year : Nat
  month : Nat
  day : Nat
  msOfDay : Nat
deriving DecidableEq, Repr

def isLeapYear (y : Nat) : Bool := (y % 4 == 0 && y % 100 != 0) || y % 400 == 0

/-- Days in month `m` (0-based, as `getMonth`) of year `y`. -/
def daysInMonth (y : Nat) (m : Nat) : Nat :=
  if m = 1 then (if isLeapYear y then 29 else 28)
  else if m = 3 ∨ m = 5 ∨ m = 8 ∨ m = 10 then 30
  else 31

/-- A parsed ISO timestamp denotes a real calendar date and time. -/
def validDate (d : JSDate) : Prop :=
  d.month < 12 ∧ 1 ≤ d.day ∧ d.day ≤ daysInMonth d.year d.month ∧
    d.msOfDay < 86400000

instance (d : JSDate) : Decidable (validDate d) := by
  unfold validDate; infer_instance

/-- `d.setMonth(d.getMonth() + months)` followed by `toISOString`:
normalize the month index `d.month + months` into year
`d.year + (d.month + months) / 12` and month `(d.month + months) % 12`,
then roll day-of-month overflow into the following month. -/
def isoAddMonths (d : JSDate) (months : Nat) : JSDate :=
  if d.day ≤ daysInMonth (d.year + (d.month + months) / 12) ((d.month + months) % 12) then
    ⟨d.year + (d.month + months) / 12, (d.month + months) % 12, d.day, d.msOfDay⟩
  else
    ⟨(if (d.month + months) % 12 = 11 then d.year + (d.month + months) / 12 + 1
        else d.year + (d.month + months) / 12),
     ((d.month + months) % 12 + 1) % 12,
     d.day - daysInMonth (d.year + (d.month + months) / 12) ((d.month + months) % 12),
     d.msOfDay⟩

/-- Months since year 0 — the linear month count `year * 12 + month`. -/
def monthLin (d : JSDate) : Nat := d.year * 12 + d.month

/-- The startup reminder check (`useEffect`): `now >= next` on `Date`
values compares their epoch-millisecond timestamps. -/
def isReviewDue (nextReview now : Int) : Bool := decide (nextReview ≤ now)

/-- Left-pad a numeral to two digits. -/
def pad2 (n : Nat) : String := if n < 10 then "0" ++ toString n else toString n

/-- Left-pad a numeral to four digits. -/
def pad4 (n : Nat) : String :=
  if n < 10 then "000" ++ toString n
  else if n < 100 then "00" ++ toString n
  else if n < 1000 then "0" ++ toString n
  else toString n

/-- Left-pad a numeral to three digits. -/
def pad3 (n : Nat) : String :=
  if n < 10 then "00" ++ toString n
  else if n < 100 then "0" ++ toString n
  else toString n

/-- `Date.prototype.toISOString`. -/
def isoOf (d : JSDate) : String :=
  pad4 d.year ++ "-" ++ pad2 (d.month + 1) ++ "-" ++ pad2 d.day ++ "T" ++
    pad2 (d.msOfDay / 3600000) ++ ":" ++ pad2 (d.msOfDay / 60000 % 60) ++ ":" ++
    pad2 (d.msOfDay / 1000 % 60) ++ "." ++ pad3 (d.msOfDay % 1000) ++ "Z"

/-! ### Default content -/

def DEFAULT_KIT_ITEMS : List String :=
  ["Documentos (em saco plástico fechado)",
   "Remédios (composições e validade)",
   "Água (mínimo 3 dias)",
   "Alimentos não perecíveis (barras de cereal, chocolate)",
   "Rádio (com pilhas)",
   "Lanterna (com pilhas sobressalentes)",
   "Kit de primeiros socorros",
   "Cópias de contatos importantes"]

/-- One phase of a disaster guide as a JSON field. -/
def guidePhase (phase : String) (steps : List String) : String × Json :=
  (phase, .arr (steps.map .str))

def DISASTER_GUIDES : Json :=
  .obj
    [("Vendaval", .obj
       [guidePhase "Antes"
          ["Fixar objetos soltos no quintal",
           "Revisar calhas e telhado",
           "Identificar abrigo interno seguro"],
        guidePhase "Durante"
          ["Fechar portas e janelas",
           "Desligar aparelhos elétricos",
           "Abrigar-se em cômodo sem janelas"],
        guidePhase "Depois"
          ["Verificar danos estruturais com segurança",
           "Evitar linhas de energia caídas",
           "Reportar danos à Defesa Civil"]]),
     ("Inundação", .obj
       [guidePhase "Antes"
          ["Mover itens em prateleiras altas",
           "Ter rota de fuga por terreno elevado",
           "Preparar kit com água potável e documentos waterproof"],
        guidePhase "Durante"
          ["Não atravessar áreas alagadas a pé ou de carro",
           "Buscar terreno mais alto",
           "Desligar energia se houver risco de contato com água"],
        guidePhase "Depois"
          ["Evitar contato com água contaminada",
           "Documentar danos e acionar seguros/autoridades",
           "Desinfetar locais e alimentos expostos"]]),
     ("Granizo", .obj
       [guidePhase "Antes"
          ["Guardar veículos em garagem",
           "Abrir apenas o necessário para ventilação",
           "Proteger plantas e objetos frágeis"],
        guidePhase "Durante"
          ["Evitar mover-se ao ar livre",
           "Abrir portas com cuidado se necessário",
           "Não subir em telhados molhados ou danificados"],
        guidePhase "Depois"
          ["Avaliar danos com cautela",
           "Cuidado com piso escorregadio",
           "Reportar danos a estruturas à Defesa Civil"]])]

/-- The state built by the `useState` initializer when no persisted state
exists, at instant `now`. -/
def initialState (now : JSDate) : Plan :=
  { family := []
    routesInternal := []
    meetingPoints := []
    externalContacts := []
    kit := DEFAULT_KIT_ITEMS.map (fun n => ⟨n, false⟩)
    disasterGuides := DISASTER_GUIDES
    riskActions := []
    lastReview := isoOf now
    nextReview := isoOf (isoAddMonths now 6)
    notes := "" }

/-! ### Document store operations (the CRUD helpers of `PFEApp`) -/

/-- `addFamilyMember`: `family: [...s.family, member]`. -/
def addFamilyMember (s : Plan) (member : Member) : Plan :=
  { s with family := s.family ++ [member] }

/-- JS array element assignment `a[i] = v`: in bounds it replaces the
element; past the end it extends the array to length `i + 1`, the gap (if
any) holding absent elements, modelled by `gap`. -/
def arraySet (l : List α) (i : Nat) (gap : α) (v : α) : List α :=
  if i < l.length then l.set i v
  else l ++ List.replicate (i - l.length) gap ++ [v]

/-- `updateFamilyMember`: copies the array, then
`fam[index] = \x7b...fam[index], ...updates\x7d`.  An out-of-bounds read
yields `undefined`, which spreads to nothing (`Member.empty`). -/
def updateFamilyMember (s : Plan) (index : Nat) (updates : Member) : Plan :=
  let fam := s.family
  let merged := Member.mergeWith (fam.getD index Member.empty) updates
  { s with family := arraySet fam index Member.empty merged }

/-- `removeFamilyMember`: `fam.splice(index, 1)` — positional delete, a
no-op past the end. -/
def removeFamilyMember (s : Plan) (index : Nat) : Plan :=
  { s with family := s.family.eraseIdx index }

/-- `toggleKitItem`: flip the `have` flag of the item at index `i`. -/
def toggleKitItem (s : Plan) (i : Nat) : Plan :=
  { s with kit := s.kit.mapIdx (fun idx it => if idx = i then ⟨it.name, !it.have_⟩ else it) }

/-- `recordRiskAction`: `riskActions: [...s.riskActions, action]`. -/
def recordRiskAction (s : Plan) (action : RiskAction) : Plan :=
  { s with riskActions := s.riskActions ++ [action] }

/-- `markReviewed` at instant `now`: stamps `lastReview` and recomputes
`nextReview = isoAddMonths(now, 6)`.  (It also clears the reminder banner
and best-effort requests notification permission — UI state outside the
document.) -/
def markReviewed (s : Plan) (now : JSDate) : Plan :=
  { s with lastReview := isoOf now, nextReview := isoOf (isoAddMonths now 6) }

/-- The `RoutesEditor` `onChange` closure: whole-field replace. -/
def setRoutesInternal (s : Plan) (routes : List Route) : Plan :=
  { s with routesInternal := routes }

/-- The `MeetingPointsEditor` `onChange` closure: whole-field replace. -/
def setMeetingPoints (s : Plan) (pts : List String) : Plan :=
  { s with meetingPoints := pts }

/-- The `ContactsEditor` `onChange` closure: whole-field replace. -/
def setExternalContacts (s : Plan) (cs : List Contact) : Plan :=
  { s with externalContacts := cs }

/-- The notes field (bound in the form markup): whole-field replace. -/
def setNotes (s : Plan) (n : String) : Plan :=
  { s with notes := n }

/-! ### Serialization (`JSON.stringify` of the state, and reading it back)

`JSON.stringify` maps the live document to the JSON tree below (an absent
member property — `undefined` — is omitted from the output, hence
`optField`).  `Plan.fromJson` is the inverse reading used to state that a
stored or re-loaded document is *equal to* the original `Plan`. -/

/-- An optional property: present iff the value is. -/
def optField (k : String) : Option String → List (String × Json)
  | some v => [(k, .str v)]
  | none => []

def Member.toJson (m : Member) : Json :=
  .obj (optField "name" m.name ++ optField "age" m.age ++
    optField "relation" m.relation ++ optField "health" m.health ++
    optField "phone" m.phone)

def Json.getStr : Json → Option String
  | .str s => some s
  | _ => none

def Member.fromJson : Json → Option Member
  | .obj fs =>
    some ⟨(fs.lookup "name").bind Json.getStr, (fs.lookup "age").bind Json.getStr,
      (fs.lookup "relation").bind Json.getStr, (fs.lookup "health").bind Json.getStr,
      (fs.lookup "phone").bind Json.getStr⟩
  | _ => none

def Route.toJson (r : Route) : Json :=
  .obj [("name", .str r.name), ("steps", .arr (r.steps.map .str))]

/-- Read back a list of strings. -/
def decodeStrList : List Json → Option (List String)
  | [] => some []
  | j :: js =>
    match Json.getStr j with
    | none => none
    | some s => (decodeStrList js).map (s :: ·)

def Route.fromJson : Json → Option Route
  | .obj fs =>
    match fs.lookup "name", fs.lookup "steps" with
    | some (.str n), some (.arr ss) => (decodeStrList ss).map (⟨n, ·⟩)
    | _, _ => none
  | _ => none

def Contact.toJson (c : Contact) : Json :=
  .obj [("name", .str c.name), ("phone", .str c.phone), ("relation", .str c.relation)]

def Contact.fromJson : Json → Option Contact
  | .obj fs =>
    match fs.lookup "name", fs.lookup "phone", fs.lookup "relation" with
    | some (.str n), some (.str p), some (.str r) => some ⟨n, p, r⟩
    | _, _, _ => none
  | _ => none

def KitItem.toJson (it : KitItem) : Json :=
  .obj [("name", .str it.name), ("have", .bool it.have_)]

def KitItem.fromJson : Json → Option KitItem
  | .obj fs =>
    match fs.lookup "name", fs.lookup "have" with
    | some (.str n), some (.bool h) => some ⟨n, h⟩
    | _, _ => none
  | _ => none

def RiskAction.toJson (a : RiskAction) : Json :=
  .obj [("text", .str a.text), ("date", .str a.date), ("by", .str a.by_)]

def RiskAction.fromJson : Json → Option RiskAction
  | .obj fs =>
    match fs.lookup "text", fs.lookup "date", fs.lookup "by" with
    | some (.str t), some (.str d), some (.str b) => some ⟨t, d, b⟩
    | _, _, _ => none
  | _ => none

/-- Read back a list of values, failing if any element fails. -/
def decodeAll (g : Json → Option α) : List Json → Option (List α)
  | [] => some []
  | j :: js =>
    match g j with
    | none => none
    | some a => (decodeAll g js).map (a :: ·)

/-- The top-level fields of the serialized document, in the state object's
insertion order. -/
def Plan.fields (s : Plan) : List (String × Json) :=
  [("family", .arr (s.family.map Member.toJson)),
   ("routesInternal", .arr (s.routesInternal.map Route.toJson)),
   ("meetingPoints", .arr (s.meetingPoints.map .str)),
   ("externalContacts", .arr (s.externalContacts.map Contact.toJson)),
   ("kit", .arr (s.kit.map KitItem.toJson)),
   ("disasterGuides", s.disasterGuides),
   ("riskActions", .arr (s.riskActions.map RiskAction.toJson)),
   ("lastReview", .str s.lastReview),
   ("nextReview", .str s.nextReview),
   ("notes", .str s.notes)]

/-- `JSON.stringify(state)`, at the level of the JSON tree. -/
def Plan.toJson (s : Plan) : Json := .obj s.fields

/-- Read a whole document back from its JSON form. -/
def Plan.fromJson : Json → Option Plan
  | .obj fs => do
    let famJ ← fs.lookup "family"
    let fam ← match famJ with
      | .arr xs => decodeAll Member.fromJson xs
      | _ => none
    let routesJ ← fs.lookup "routesInternal"
    let routes ← match routesJ with
      | .arr xs => decodeAll Route.fromJson xs
      | _ => none
    let mpsJ ← fs.lookup "meetingPoints"
    let mps ← match mpsJ with
      | .arr xs => decodeStrList xs
      | _ => none
    let ecsJ ← fs.lookup "externalContacts"
    let ecs ← match ecsJ with
      | .arr xs => decodeAll Contact.fromJson xs
      | _ => none
    let kitJ ← fs.lookup "kit"
    let kit ← match kitJ with
      | .arr xs => decodeAll KitItem.fromJson xs
      | _ => none
    let guides ← fs.lookup "disasterGuides"
    let rasJ ← fs.lookup "riskActions"
    let ras ← match rasJ with
      | .arr xs => decodeAll RiskAction.fromJson xs
      | _ => none
    let lr ← (fs.lookup "lastReview").bind Json.getStr
    let nr ← (fs.lookup "nextReview").bind Json.getStr
    let nts ← (fs.lookup "notes").bind Json.getStr
    some ⟨fam, routes, mps, ecs, kit, guides, ras, lr, nr, nts⟩
  | _ => none

/-! ### Persistence adapter (`loadState` / `saveState`)

The `localStorage` slot `pfe_app_v1` holds, when occupied, the JSON document
written by `JSON.stringify`; the slot is modelled at the level of that
document.  `saveState` swallows write failures (`quotaExceeded`), leaving
the slot as it was; `loadState` returns the parsed slot content, or `null`
(`none`) when the slot is empty. -/

def saveState (quotaExceeded : Bool) (s : Plan) (slot : Option Json) : Option Json :=
  if quotaExceeded then slot else some s.toJson

def loadState (slot : Option Json) : Option Json := slot

/-! ### Import / export codec (`importJSON`) -/

/-- JS object spread `\x7b...base, ...patch\x7d` for objects with distinct
keys: base entries keep their position, overridden where the patch has the
same key; patch-only keys are appended in order. -/
def jsMergeObj (base patch : List (String × Json)) : List (String × Json) :=
  base.map (fun kv =>
    match patch.lookup kv.1 with
    | some v => (kv.1, v)
    | none => kv) ++
  patch.filter (fun kv => (base.lookup kv.1).isNone)

/-- `importJSON`, after the file's text `raw` has been read: parse it; on
success shallow-merge the parsed value's own properties over the live
document's fields; on failure leave the document untouched.  The `Bool`
result is the `alert('Arquivo inválido.')` invalid-file signal. -/
def importJSON (stateFields : List (String × Json)) (raw : String) :
    List (String × Json) × Bool :=
  match parseJson raw with
  | none => (stateFields, true)
  | some d => (jsMergeObj stateFields d.ownProps, false)

end PFE

namespace TodoApp

/-! ### The to-do list app (`meu-app-react/src/App.jsx`) -/

structure TodoItem where
  id : Nat
  text : String
  completed : Bool
deriving DecidableEq, Repr

/-- The component state: the `todos` list and the controlled input value. -/
structure TodoState where
  todos : List TodoItem
  inputValue : String
deriving DecidableEq, Repr

/-- ECMAScript `String.prototype.trim` whitespace (the characters relevant
to this development; the full set also has further exotic Unicode spaces). -/
def isJsWs (c : Char) : Bool :=
  [' ', '\t', '\n', '\r', Char.ofNat 11, Char.ofNat 12,
    Char.ofNat 160, Char.ofNat 65279].contains c

/-- `inputValue.trim()`. -/
def jsTrim (s : String) : String :=
  String.mk (((s.data.dropWhile isJsWs).reverse.dropWhile isJsWs).reverse)

/-- `handleAddTodo` at instant `now` (`Date.now()`): reject a blank input,
otherwise append a fresh uncompleted todo and clear the input. -/
def handleAddTodo (now : Nat) (st : TodoState) : TodoState :=
  if jsTrim st.inputValue = "" then st
  else { todos := st.todos ++ [⟨now, st.inputValue, false⟩], inputValue := "" }

end TodoApp

namespace PFE

/-- A concrete document: the freshly initialized state at
2024-01-31T00:00:00Z, used to instantiate witnesses. -/
def examplePlan : Plan := initialState ⟨2024, 0, 31, 0⟩

/-! ### Serialization round-trip lemmas -/

theorem member_roundtrip (m : Member) :
    Member.fromJson (Member.toJson m) = some m := by
  rcases m with ⟨n, a, r, h, p⟩
  cases n <;> cases a <;> cases r <;> cases h <;> cases p <;> rfl

theorem decodeStrList_map (l : List String) :
    decodeStrList (l.map Json.str) = some l := by
  induction l with
  | nil => rfl
  | cons x xs ih => simp [decodeStrList, Json.getStr, ih]

theorem route_roundtrip (r : Route) :
    Route.fromJson (Route.toJson r) = some r := by
  rcases r with ⟨n, steps⟩
  show (decodeStrList (steps.map Json.str)).map _ = _
  rw [decodeStrList_map]
  rfl

theorem contact_roundtrip (c : Contact) :
    Contact.fromJson (Contact.toJson c) = some c := rfl

theorem kitItem_roundtrip (it : KitItem) :
    KitItem.fromJson (KitItem.toJson it) = some it := rfl

theorem riskAction_roundtrip (a : RiskAction) :
    RiskAction.fromJson (RiskAction.toJson a) = some a := rfl

theorem decodeAll_map (f : α → Json) (g : Json → Option α)
    (hfg : ∀ x, g (f x) = some x) (l : List α) :
    decodeAll g (l.map f) = some l := by
  induction l with
  | nil => rfl
  | cons x xs ih => simp [decodeAll, hfg, ih]

/-- Reading the serialized document back recovers the document. -/
theorem plan_roundtrip (P : Plan) : Plan.fromJson (Plan.toJson P) = some P := by
  rcases P with ⟨fam, routes, mps, ecs, kit, guides, ras, lr, nr, nts⟩
  show (decodeAll Member.fromJson (fam.map Member.toJson)).bind _ = _
  rw [decodeAll_map _ _ member_roundtrip]
  show (decodeAll Route.fromJson (routes.map Route.toJson)).bind _ = _
  rw [decodeAll_map _ _ route_roundtrip]
  show (decodeStrList (mps.map Json.str)).bind _ = _
  rw [decodeStrList_map]
  show (decodeAll Contact.fromJson (ecs.map Contact.toJson)).bind _ = _
  rw [decodeAll_map _ _ contact_roundtrip]
  show (decodeAll KitItem.fromJson (kit.map KitItem.toJson)).bind _ = _
  rw [decodeAll_map _ _ kitItem_roundtrip]
  show (decodeAll RiskAction.fromJson (ras.map RiskAction.toJson)).bind _ = _
  rw [decodeAll_map _ _ riskAction_roundtrip]
  rfl

/-- C1: saving a Plan and loading yields a document equal to the Plan (the
slot then holds exactly its serialized form, and reading that form back
recovers the Plan); when the save silently fails on a quota error, loading
returns whatever the slot held before — the prior state or absent. -/
theorem save_load_roundtrip (P : Plan) (slot : Option Json) :
    (loadState (saveState false P slot) = some P.toJson ∧
      Plan.fromJson P.toJson = some P) ∧
    loadState (saveState true P slot) = loadState slot :=
  ⟨⟨rfl, plan_roundtrip P⟩, rfl⟩

/-- C2: for every input whose text fails to parse as JSON, `importJSON`
leaves the whole live document untouched and raises the invalid-file
alert. -/
theorem importJSON_invalid_file (P : Plan) (raw : String)
    (h : parseJson raw = none) :
    importJSON P.fields raw = (P.fields, true) := by
  simp [importJSON, h]

theorem importJSON_invalid_file_witness :
    importJSON examplePlan.fields "\x7b\"family\":" = (examplePlan.fields, true) :=
  importJSON_invalid_file examplePlan "\x7b\"family\":" rfl

/-- C3: importing a well-formed snapshot whose only top-level field is
`family` succeeds (no invalid-file alert), replaces `family` with the
imported value, and leaves each of the nine other top-level fields equal to
its pre-import value. -/
theorem importJSON_family_merge (P : Plan) (raw : String) (fam : Json)
    (h : parseJson raw = some (.obj [("family", fam)])) :
    (importJSON P.fields raw).2 = false ∧
    (importJSON P.fields raw).1.lookup "family" = some fam ∧
    (importJSON P.fields raw).1.lookup "routesInternal" = P.fields.lookup "routesInternal" ∧
    (importJSON P.fields raw).1.lookup "meetingPoints" = P.fields.lookup "meetingPoints" ∧
    (importJSON P.fields raw).1.lookup "externalContacts" = P.fields.lookup "externalContacts" ∧
    (importJSON P.fields raw).1.lookup "kit" = P.fields.lookup "kit" ∧
    (importJSON P.fields raw).1.lookup "disasterGuides" = P.fields.lookup "disasterGuides" ∧
    (importJSON P.fields raw).1.lookup "riskActions" = P.fields.lookup "riskActions" ∧
    (importJSON P.fields raw).1.lookup "lastReview" = P.fields.lookup "lastReview" ∧
    (importJSON P.fields raw).1.lookup "nextReview" = P.fields.lookup "nextReview" ∧
    (importJSON P.fields raw).1.lookup "notes" = P.fields.lookup "notes" := by
  have e : importJSON P.fields raw = (jsMergeObj P.fields [("family", fam)], false) := by
    unfold importJSON; rw [h]; rfl
  rw [e]
  exact ⟨rfl, rfl, rfl, rfl, rfl, rfl, rfl, rfl, rfl, rfl, rfl⟩

theorem importJSON_family_merge_witness :
    (importJSON examplePlan.fields "\x7b\"family\":[]\x7d").2 = false ∧
    (importJSON examplePlan.fields "\x7b\"family\":[]\x7d").1.lookup "family" =
      some (Json.arr []) :=
  ⟨(importJSON_family_merge examplePlan "\x7b\"family\":[]\x7d" (Json.arr []) rfl).1,
   (importJSON_family_merge examplePlan "\x7b\"family\":[]\x7d" (Json.arr []) rfl).2.1⟩

/-- C7: the reminder check is due exactly when `now` has reached
`nextReview`; in particular at `now = nextReview` the review is due. -/
theorem isReviewDue_iff (nextReview now : Int) :
    (isReviewDue nextReview now = true ↔ nextReview ≤ now) ∧
    isReviewDue nextReview nextReview = true := by
  constructor
  · simp [isReviewDue]
  · simp [isReviewDue]

/-- C8: appending to a list field is copy-on-write — the new sequence is
the old elements in order followed by the new item, and the old sequence
value (any snapshot of it) keeps its length and elements, which in this
persistent embedding is witnessed by the new list extending the old one as
a prefix. -/
theorem appendToList_copy_on_write (s : Plan) (member : Member)
    (action : RiskAction) :
    (addFamilyMember s member).family = s.family ++ [member] ∧
    (addFamilyMember s member).family.take s.family.length = s.family ∧
    (addFamilyMember s member).family.length = s.family.length + 1 ∧
    (recordRiskAction s action).riskActions = s.riskActions ++ [action] ∧
    (recordRiskAction s action).riskActions.take s.riskActions.length = s.riskActions ∧
    (recordRiskAction s action).riskActions.length = s.riskActions.length + 1 := by
  refine ⟨rfl, ?_, ?_, rfl, ?_, ?_⟩ <;>
    simp [addFamilyMember, recordRiskAction, List.take_left]

/-- C9: `markReviewed` changes at most the two review timestamps — every
other field of the document is left unchanged. -/
theorem markReviewed_frame (s : Plan) (now : JSDate) :
    (markReviewed s now).family = s.family ∧
    (markReviewed s now).routesInternal = s.routesInternal ∧
    (markReviewed s now).meetingPoints = s.meetingPoints ∧
    (markReviewed s now).externalContacts = s.externalContacts ∧
    (markReviewed s now).kit = s.kit ∧
    (markReviewed s now).disasterGuides = s.disasterGuides ∧
    (markReviewed s now).riskActions = s.riskActions ∧
    (markReviewed s now).notes = s.notes := by
  simp [markReviewed]

/-! ### The review scheduler's month arithmetic (C4) -/

theorem daysInMonth_bounds (y m : Nat) :
    28 ≤ daysInMonth y m ∧ daysInMonth y m ≤ 31 := by
  unfold daysInMonth
  split
  · split <;> omega
  · split <;> omega

/-- C4 counterexample: for `lastReview = 2024-08-31T00:00Z` the JS
`setMonth` day-overflow normalization lands in March 2025 (month index 2),
not six calendar months later (February 2025) — the month, not only the
day-of-month, shifts. -/
theorem isoAddMonths_month_shift_cx :
    monthLin (isoAddMonths ⟨2024, 7, 31, 0⟩ 6) ≠ monthLin ⟨2024, 7, 31, 0⟩ + 6 ∧
    isoAddMonths ⟨2024, 7, 31, 0⟩ 6 = ⟨2025, 2, 3, 0⟩ := by
  constructor
  · decide
  · decide

/-- C4 (amended): `computeNextReview` advances the linear month count by
exactly 6 with the day-of-month preserved whenever that day exists in the
target month; otherwise the day overflow rolls into the following month
(month count +7, day reduced by the target month's length).  The result is
always a valid date, and for `2024-01-31T00:00Z` it is `2024-07-31`, in
July 2024. -/
theorem isoAddMonths_six_spec (d : JSDate) (h : validDate d) :
    validDate (isoAddMonths d 6) ∧
    ((monthLin (isoAddMonths d 6) = monthLin d + 6 ∧ (isoAddMonths d 6).day = d.day) ∨
      (monthLin (isoAddMonths d 6) = monthLin d + 7 ∧
        (isoAddMonths d 6).day +
          daysInMonth (d.year + (d.month + 6) / 12) ((d.month + 6) % 12) = d.day)) ∧
    isoAddMonths ⟨2024, 0, 31, 0⟩ 6 = ⟨2024, 6, 31, 0⟩ := by
  obtain ⟨hm, hd1, hd2, hms⟩ := h
  have hb2 := daysInMonth_bounds d.year d.month
  have hb1 := daysInMonth_bounds (d.year + (d.month + 6) / 12) ((d.month + 6) % 12)
  unfold validDate monthLin isoAddMonths
  by_cases hday : d.day ≤ daysInMonth (d.year + (d.month + 6) / 12) ((d.month + 6) % 12)
  · rw [if_pos hday]
    dsimp only
    exact ⟨⟨by omega, hd1, hday, hms⟩, Or.inl ⟨by omega, rfl⟩, by decide⟩
  · rw [if_neg hday]
    dsimp only
    have hb3 := daysInMonth_bounds
      (if (d.month + 6) % 12 = 11 then d.year + (d.month + 6) / 12 + 1
        else d.year + (d.month + 6) / 12) (((d.month + 6) % 12 + 1) % 12)
    refine ⟨⟨by omega, by omega, by omega, hms⟩, Or.inr ⟨?_, by omega⟩, by decide⟩
    by_cases h11 : (d.month + 6) % 12 = 11
    · rw [if_pos h11]; omega
    · rw [if_neg h11]; omega

theorem isoAddMonths_six_spec_witness :
    validDate (isoAddMonths ⟨2024, 0, 31, 0⟩ 6) ∧
    ((monthLin (isoAddMonths ⟨2024, 0, 31, 0⟩ 6) = monthLin ⟨2024, 0, 31, 0⟩ + 6 ∧
        (isoAddMonths ⟨2024, 0, 31, 0⟩ 6).day = (31 : Nat)) ∨
      (monthLin (isoAddMonths ⟨2024, 0, 31, 0⟩ 6) = monthLin ⟨2024, 0, 31, 0⟩ + 7 ∧
        (isoAddMonths ⟨2024, 0, 31, 0⟩ 6).day + daysInMonth 2024 6 = 31)) ∧
    isoAddMonths ⟨2024, 0, 31, 0⟩ 6 = ⟨2024, 6, 31, 0⟩ :=
  isoAddMonths_six_spec ⟨2024, 0, 31, 0⟩ (by decide)

/-! ### Out-of-bounds `updateListItem` (C5) -/

theorem arraySet_length (l : List α) (i : Nat) (g v : α) :
    (arraySet l i g v).length = max l.length (i + 1) := by
  unfold arraySet
  by_cases h : i < l.length
  · rw [if_pos h]; simp; omega
  · rw [if_neg h]; simp; omega

theorem arraySet_getElem_self (l : List α) (i : Nat) (g v : α) :
    (arraySet l i g v)[i]? = some v := by
  unfold arraySet
  by_cases h : i < l.length
  · rw [if_pos h]
    exact List.getElem?_set_self h
  · rw [if_neg h]
    have hlen : (l ++ List.replicate (i - l.length) g).length = i := by simp; omega
    rw [List.getElem?_append_right hlen.le, hlen, Nat.sub_self]
    rfl

theorem arraySet_getElem_other (l : List α) (i j : Nat) (g v : α)
    (hne : j ≠ i) (hj : j < l.length) :
    (arraySet l i g v)[j]? = l[j]? := by
  unfold arraySet
  by_cases h : i < l.length
  · rw [if_pos h]
    exact List.getElem?_set_ne (fun hh => hne hh.symm)
  · rw [if_neg h]
    rw [List.getElem?_append_left (by simp; omega)]
    rw [List.getElem?_append_left hj]

/-- C5 counterexample: updating index 0 of an empty family list is not a
no-op — JS array assignment extends the array, so the list grows from 0 to
1 elements. -/
theorem updateFamilyMember_oob_cx :
    examplePlan.family.length = 0 ∧
    (updateFamilyMember examplePlan 0 ⟨none, none, none, some "ok", none⟩).family.length = 1 :=
  ⟨rfl, rfl⟩

/-- C5 (amended): `updateListItem` at an in-bounds index merges the partial
update into the addressed element, leaving the list length and all other
elements unchanged; at an index at or past the end it is NOT a no-op: the
array is extended to length `index + 1` with the merged update object
placed at `index` (the merge then reads `undefined`, so the new element has
exactly the update's fields).  Fields of the Plan other than the list are
unchanged in both cases. -/
theorem updateFamilyMember_spec (s : Plan) (i : Nat) (u : Member) :
    (updateFamilyMember s i u).family.length = max s.family.length (i + 1) ∧
    (updateFamilyMember s i u).family[i]? =
      some (Member.mergeWith (s.family.getD i Member.empty) u) ∧
    (∀ j, j ≠ i → j < s.family.length →
      (updateFamilyMember s i u).family[j]? = s.family[j]?) ∧
    (updateFamilyMember s i u).routesInternal = s.routesInternal ∧
    (updateFamilyMember s i u).meetingPoints = s.meetingPoints ∧
    (updateFamilyMember s i u).externalContacts = s.externalContacts ∧
    (updateFamilyMember s i u).kit = s.kit ∧
    (updateFamilyMember s i u).disasterGuides = s.disasterGuides ∧
    (updateFamilyMember s i u).riskActions = s.riskActions ∧
    (updateFamilyMember s i u).lastReview = s.lastReview ∧
    (updateFamilyMember s i u).nextReview = s.nextReview ∧
    (updateFamilyMember s i u).notes = s.notes := by
  have hfam : (updateFamilyMember s i u).family =
      arraySet s.family i Member.empty
        (Member.mergeWith (s.family.getD i Member.empty) u) := by
    simp [updateFamilyMember]
  refine ⟨?_, ?_, ?_, ?_, ?_, ?_, ?_, ?_, ?_, ?_, ?_, ?_⟩
  · rw [hfam, arraySet_length]
  · rw [hfam, arraySet_getElem_self]
  · intro j hne hj
    rw [hfam, arraySet_getElem_other _ _ _ _ _ hne hj]
  all_goals simp [updateFamilyMember]

theorem updateFamilyMember_spec_witness :
    (updateFamilyMember examplePlan 0 ⟨none, none, none, some "ok", none⟩).family.length =
      max examplePlan.family.length 1 :=
  (updateFamilyMember_spec examplePlan 0 ⟨none, none, none, some "ok", none⟩).1

/-! ### The kit invariant (C6) -/

theorem lookup_append (l1 l2 : List (String × Json)) (k : String) :
    (l1 ++ l2).lookup k = (l1.lookup k).orElse (fun _ => l2.lookup k) := by
  induction l1 with
  | nil => rfl
  | cons hd t ih =>
    rcases hd with ⟨k1, v1⟩
    cases hbeq : (k == k1) <;>
      simp [List.lookup_cons, hbeq, ih, Option.orElse]

theorem lookup_map_override (base patch : List (String × Json)) (k : String)
    (h : patch.lookup k = none) :
    (base.map (fun kv =>
      match patch.lookup kv.1 with
      | some v => (kv.1, v)
      | none => kv)).lookup k = base.lookup k := by
  induction base with
  | nil => rfl
  | cons hd t ih =>
    rcases hd with ⟨k1, v1⟩
    cases hpk : patch.lookup k1 with
    | none =>
      cases hbeq : (k == k1) <;>
        simp [List.lookup_cons, hpk, hbeq, ih]
    | some v =>
      cases hbeq : (k == k1) with
      | true =>
        have hk : k = k1 := by simpa using hbeq
        rw [hk] at h
        rw [h] at hpk
        cases hpk
      | false =>
        simp [List.lookup_cons, hpk, hbeq, ih]

theorem lookup_filter_none (p : List (String × Json)) (f : String × Json → Bool)
    (k : String) (h : p.lookup k = none) :
    (p.filter f).lookup k = none := by
  induction p with
  | nil => rfl
  | cons hd t ih =>
    rcases hd with ⟨k1, v1⟩
    cases hbeq : (k == k1) with
    | true => simp [List.lookup_cons, hbeq] at h
    | false =>
      have h2 : t.lookup k = none := by simpa [List.lookup_cons, hbeq] using h
      cases hf : f (k1, v1) <;>
        simp [List.filter_cons, hf, List.lookup_cons, hbeq, ih h2]

/-- A shallow merge leaves every key the patch does not mention bound to its
base value. -/
theorem jsMergeObj_lookup_none (base patch : List (String × Json)) (k : String)
    (h : patch.lookup k = none) :
    (jsMergeObj base patch).lookup k = base.lookup k := by
  unfold jsMergeObj
  rw [lookup_append, lookup_map_override base patch k h,
    lookup_filter_none patch _ k h]
  cases base.lookup k <;> rfl

/-- An index-aware map whose function keeps the `name` field keeps the
name sequence. -/
theorem mapIdx_map_name (l : List KitItem) (f : Nat → KitItem → KitItem)
    (hf : ∀ n it, (f n it).name = it.name) :
    (l.mapIdx f).map KitItem.name = l.map KitItem.name := by
  induction l generalizing f with
  | nil => rfl
  | cons x xs ih =>
    rw [List.mapIdx_cons, List.map_cons, List.map_cons, hf 0 x,
      ih _ (fun n it => hf (n + 1) it)]

/-- C6 counterexample: importing the well-formed snapshot whose kit field
is an empty list replaces the kit wholesale — the default 8-item checklist
becomes empty, so not every operation preserves the kit length and
names. -/
theorem import_kit_replaced_cx :
    ((importJSON examplePlan.fields "\x7b\"kit\":[]\x7d").1.lookup "kit").bind Json.arrLen =
      some 0 ∧
    (examplePlan.fields.lookup "kit").bind Json.arrLen = some 8 ∧
    (importJSON examplePlan.fields "\x7b\"kit\":[]\x7d").2 = false :=
  ⟨rfl, rfl, rfl⟩

/-- C6 (amended): the kit is seeded from the fixed default checklist;
`toggleKitItem` preserves the kit's length and item names (only the `have`
flag changes), and every other editor operation leaves the kit field
entirely unchanged.  Importing a snapshot that does not mention `kit` also
leaves the kit unchanged — but an import whose snapshot contains a `kit`
field replaces it wholesale (see the counterexample). -/
theorem kit_names_fixed (s : Plan) (i idx : Nat) (m u : Member) (a : RiskAction)
    (now : JSDate) (routes : List Route) (pts : List String) (cs : List Contact)
    (n : String) (raw : String) (d : Json)
    (hparse : parseJson raw = some d) (hnokit : d.ownProps.lookup "kit" = none) :
    (toggleKitItem s i).kit.length = s.kit.length ∧
    (toggleKitItem s i).kit.map KitItem.name = s.kit.map KitItem.name ∧
    (addFamilyMember s m).kit = s.kit ∧
    (updateFamilyMember s idx u).kit = s.kit ∧
    (removeFamilyMember s idx).kit = s.kit ∧
    (recordRiskAction s a).kit = s.kit ∧
    (markReviewed s now).kit = s.kit ∧
    (setRoutesInternal s routes).kit = s.kit ∧
    (setMeetingPoints s pts).kit = s.kit ∧
    (setExternalContacts s cs).kit = s.kit ∧
    (setNotes s n).kit = s.kit ∧
    (importJSON s.fields raw).1.lookup "kit" = s.fields.lookup "kit" ∧
    (initialState now).kit.map KitItem.name = DEFAULT_KIT_ITEMS := by
  have hkit : (toggleKitItem s i).kit =
      s.kit.mapIdx (fun idx2 it => if idx2 = i then ⟨it.name, !it.have_⟩ else it) := by
    simp [toggleKitItem]
  have hname : (toggleKitItem s i).kit.map KitItem.name = s.kit.map KitItem.name := by
    rw [hkit]
    exact mapIdx_map_name _ _ (fun n2 it => by split <;> rfl)
  refine ⟨?_, hname, ?_, ?_, ?_, ?_, ?_, ?_, ?_, ?_, ?_, ?_, ?_⟩
  · rw [hkit]; simp
  · simp [addFamilyMember]
  · simp [updateFamilyMember]
  · simp [removeFamilyMember]
  · simp [recordRiskAction]
  · simp [markReviewed]
  · simp [setRoutesInternal]
  · simp [setMeetingPoints]
  · simp [setExternalContacts]
  · simp [setNotes]
  · have e : importJSON s.fields raw = (jsMergeObj s.fields d.ownProps, false) := by
      unfold importJSON; rw [hparse]
    rw [e]
    exact jsMergeObj_lookup_none _ _ _ hnokit
  · show (DEFAULT_KIT_ITEMS.map (fun nm => KitItem.mk nm false)).map KitItem.name =
      DEFAULT_KIT_ITEMS
    rw [List.map_map]
    exact List.map_id DEFAULT_KIT_ITEMS

theorem kit_names_fixed_witness :
    (importJSON examplePlan.fields "\x7b\"family\":[]\x7d").1.lookup "kit" =
      examplePlan.fields.lookup "kit" :=
  (kit_names_fixed examplePlan 0 0 Member.empty Member.empty ⟨"", "", ""⟩
    ⟨2024, 0, 31, 0⟩ [] [] [] "" "\x7b\"family\":[]\x7d"
    (Json.obj [("family", Json.arr [])]) rfl rfl).2.2.2.2.2.2.2.2.2.2.2.1

end PFE

namespace TodoApp

theorem jsTrim_eq_empty_iff (s : String) :
    jsTrim s = "" ↔ s.data.all isJsWs = true := by
  unfold jsTrim
  constructor
  · intro h
    have h2 : ((s.data.dropWhile isJsWs).reverse.dropWhile isJsWs).reverse = [] := by
      have h3 := congrArg String.data h
      simpa using h3
    rw [List.reverse_eq_nil_iff, List.dropWhile_eq_nil_iff] at h2
    rw [List.all_eq_true]
    intro x hx
    have hx2 : x ∈ s.data.takeWhile isJsWs ++ s.data.dropWhile isJsWs := by
      rw [List.takeWhile_append_dropWhile]
      exact hx
    rcases List.mem_append.mp hx2 with h3 | h3
    · exact List.mem_takeWhile_imp h3
    · exact h2 x (List.mem_reverse.mpr h3)
  · intro h
    have h2 : s.data.dropWhile isJsWs = [] :=
      List.dropWhile_eq_nil_iff.mpr (fun x hx => List.all_eq_true.mp h x hx)
    rw [h2]
    rfl

/-- C10: `handleAddTodo` is a no-op exactly when the input is empty or all
whitespace (the `trim` check); otherwise it appends exactly one new todo at
the end — carrying the input text and `completed = false` and preserving all
existing todos in order — and clears the input. -/
theorem handleAddTodo_spec (now : Nat) (st : TodoState) :
    (jsTrim st.inputValue = "" ↔ st.inputValue.data.all isJsWs = true) ∧
    handleAddTodo now st =
      (if st.inputValue.data.all isJsWs = true then st
        else ⟨st.todos ++ [⟨now, st.inputValue, false⟩], ""⟩) := by
  have hiff := jsTrim_eq_empty_iff st.inputValue
  refine ⟨hiff, ?_⟩
  unfold handleAddTodo
  by_cases h : jsTrim st.inputValue = ""
  · rw [if_pos h, if_pos (hiff.mp h)]
  · rw [if_neg h, if_neg (fun hh => h (hiff.mpr hh))]

end TodoApp
